import Mathlib

/-!
Verification development for the EventNotify application (src/server.ts).

The TypeScript source is shallowly embedded: pure functions become Lean
functions, the stateful facade becomes explicit state passing over a
`FacadeState` record, JavaScript `Map`/`Set` become insertion-ordered
association lists with the corresponding operations, timestamps and the
generated UUIDs (`Date.now()`, `cryptoRandomId()`) become explicit
parameters supplied by the caller (oracles for the nondeterminism), and a
listener whose build step can throw becomes an `Except`-valued observer,
with the thrown error propagating exactly where the JavaScript exception
would.
-/

/-- `ChannelType` from server.ts: "email" | "sms" | "push". -/
inductive ChannelType
  | email
  | sms
  | push
deriving DecidableEq, Repr

/-- `DomainEvent.type` values: "CREATED" | "UPDATED" | "CANCELLED". -/
inductive EventType
  | CREATED
  | UPDATED
  | CANCELLED
deriving DecidableEq, Repr

/-- `DomainEvent` DTO from server.ts. `createdAt` is a millisecond
timestamp, modelled as `Int`. -/
structure DomainEvent where
  id : String
  title : String
  type : EventType
  createdAt : Int
deriving DecidableEq, Repr

/-- `NotificationMessage` DTO from server.ts. -/
structure NotificationMessage where
  id : String
  userId : String
  userName : String
  channel : ChannelType
  eventId : String
  eventTitle : String
  eventType : EventType
  sentAt : Int
  latencyMs : Int
  rendered : String
deriving DecidableEq, Repr

/-- Rendering of an `EventType` as in the template literals of the
strategies (`${event.type}`). -/
def EventType.str : EventType → String
  | .CREATED => "CREATED"
  | .UPDATED => "UPDATED"
  | .CANCELLED => "CANCELLED"

/-- `EmailStrategy.send` from server.ts. -/
def EmailStrategy.send (userName : String) (event : DomainEvent) : String :=
  "📧 Email a " ++ userName ++ ": Evento \"" ++ event.title ++ "\" (" ++ event.type.str ++ ")"

/-- `SmsStrategy.send` from server.ts. -/
def SmsStrategy.send (userName : String) (event : DomainEvent) : String :=
  "📱 SMS a " ++ userName ++ ": Evento \"" ++ event.title ++ "\" (" ++ event.type.str ++ ")"

/-- `PushStrategy.send` from server.ts. -/
def PushStrategy.send (userName : String) (event : DomainEvent) : String :=
  "🔔 Push a " ++ userName ++ ": Evento \"" ++ event.title ++ "\" (" ++ event.type.str ++ ")"

/-- `NotificationFactory.create` from server.ts: a strategy is its `send`
method, so the factory returns the send function for the channel. The
`default` branch of the TypeScript switch is unreachable (`never`),
matching the totality of this function on the closed `ChannelType`. -/
def NotificationFactory.create : ChannelType → (String → DomainEvent → String)
  | .email => EmailStrategy.send
  | .sms => SmsStrategy.send
  | .push => PushStrategy.send

/-- `Subscriber` record from server.ts. -/
structure Subscriber where
  id : String
  name : String
  channel : ChannelType
deriving DecidableEq, Repr

/-- `UserSubscriber.update` from server.ts. The two nondeterministic
reads inside the method — `cryptoRandomId()` for the notification id and
`Date.now()` for `sentAt` — are passed in as the parameters `freshId`
and `sentAt`. -/
def UserSubscriber.update (sub : Subscriber) (freshId : String) (sentAt : Int)
    (event : DomainEvent) : NotificationMessage :=
  let strategy := NotificationFactory.create sub.channel
  let rendered := strategy sub.name event
  { id := freshId
    userId := sub.id
    userName := sub.name
    channel := sub.channel
    eventId := event.id
    eventTitle := event.title
    eventType := event.type
    sentAt := sentAt
    latencyMs := max 0 (sentAt - event.createdAt)
    rendered := rendered }

/-! ### JavaScript `Map` model

A JavaScript `Map` iterates in insertion order; `set` on a fresh key
appends, `set` on a present key overwrites in place, `delete` removes the
entry. We model a map as an insertion-ordered association list. -/

/-- Keys of an association list, in insertion order. -/
def jsKeys {β : Type} (m : List (String × β)) : List String :=
  m.map Prod.fst

/-- `Map.prototype.set`: overwrite in place if the key is present,
append otherwise. -/
def jsMapSet {β : Type} (m : List (String × β)) (k : String) (v : β) :
    List (String × β) :=
  if k ∈ jsKeys m then
    m.map (fun p => if p.1 = k then (k, v) else p)
  else
    m ++ [(k, v)]

/-- `Map.prototype.delete`: remove the entry with the key (no-op when
absent). -/
def jsMapDelete {β : Type} (m : List (String × β)) (k : String) :
    List (String × β) :=
  m.filter (fun p => p.1 ≠ k)

/-! ### Event bus

An observer's `update` can throw in JavaScript; we model an observer as
an `Except`-valued function. `notifyAll` is the `for`-loop of server.ts:
results are pushed in iteration (= registration) order, and a thrown
error propagates immediately, discarding the partially built batch. -/

/-- The `Observer` interface: `update(event)` may throw (modelled as
`Except.error`). -/
def Observer : Type :=
  DomainEvent → Except String NotificationMessage

/-- `EventBus.notifyAll` from server.ts, over the bus's observer map
(insertion-ordered list of id/observer entries). The first thrown error
aborts the loop and propagates out of the call. -/
def EventBus.notifyAll : List (String × Observer) → DomainEvent →
    Except String (List NotificationMessage)
  | [], _ => Except.ok []
  | (_, obs) :: rest, event =>
    match obs event with
    | Except.error err => Except.error err
    | Except.ok msg =>
      match EventBus.notifyAll rest event with
      | Except.error err => Except.error err
      | Except.ok msgs => Except.ok (msg :: msgs)

/-! ### Facade state

`EventNotifyFacade` owns the bus, the subscriber registry and the SSE
client set. Every observer the program ever registers on the bus is a
`UserSubscriber` wrapping the registered `Subscriber`, so the bus map is
modelled as id ↦ wrapped `Subscriber`; its behaviour as an observer is
`UserSubscriber.update`. SSE clients (`Response` objects) are modelled by
opaque identifiers. `AsyncDispatcher.dispatch` schedules one `setTimeout`
per message; the scheduled, not yet fired, deliveries are the `pending`
list. -/

structure FacadeState where
  subscribers : List (String × Subscriber)
  busObservers : List (String × Subscriber)
  sseClients : List String
  pending : List NotificationMessage
deriving DecidableEq, Repr

/-- The state of the freshly constructed `EventNotifyFacade`. -/
def FacadeState.empty : FacadeState :=
  { subscribers := [], busObservers := [], sseClients := [], pending := [] }

/-- Keys of the subscriber registry map. -/
def subKeys (s : FacadeState) : List String :=
  jsKeys s.subscribers

/-- Keys of the event bus's observer map. -/
def busKeys (s : FacadeState) : List String :=
  jsKeys s.busObservers

/-- `EventBus.count` / `EventNotifyFacade.subscriberCount`:
`observers.size`. -/
def Facade.subscriberCount (s : FacadeState) : Nat :=
  s.busObservers.length

/-- `EventNotifyFacade.addSseClient`: `Set.prototype.add` (no duplicate
insertion). -/
def Facade.addSseClient (s : FacadeState) (c : String) : FacadeState :=
  { s with sseClients := if c ∈ s.sseClients then s.sseClients else s.sseClients ++ [c] }

/-- `EventNotifyFacade.removeSseClient`: `Set.prototype.delete`. -/
def Facade.removeSseClient (s : FacadeState) (c : String) : FacadeState :=
  { s with sseClients := s.sseClients.filter (fun x => x ≠ c) }

/-- `EventNotifyFacade.subscribeUser`. The generated UUID is the
`freshId` parameter. Stores the subscriber in the registry and registers
the wrapping `UserSubscriber` on the bus under the same id. -/
def Facade.subscribeUser (s : FacadeState) (freshId name : String)
    (channel : ChannelType) : Subscriber × FacadeState :=
  let sub : Subscriber := { id := freshId, name := name, channel := channel }
  (sub,
    { s with
      subscribers := jsMapSet s.subscribers sub.id sub
      busObservers := jsMapSet s.busObservers sub.id sub })

/-- `EventNotifyFacade.unsubscribeUser`: delete the id from both maps. -/
def Facade.unsubscribeUser (s : FacadeState) (id : String) : FacadeState :=
  { s with
    subscribers := jsMapDelete s.subscribers id
    busObservers := jsMapDelete s.busObservers id }

/-- `EventNotifyFacade.listSubscribers`: `Array.from(map.values())`. -/
def Facade.listSubscribers (s : FacadeState) : List Subscriber :=
  s.subscribers.map Prod.snd

/-- The bus observer map as `Observer` functions: entry `(id, sub)` is
`new UserSubscriber(sub)`, whose `update` never throws. `fresh` supplies
each update call's nondeterministic reads (notification UUID and
`Date.now()` value), one pair per observer in iteration order. -/
def Facade.busAsObservers (subs : List (String × Subscriber))
    (fresh : List (String × Int)) : List (String × Observer) :=
  (subs.zip fresh).map
    (fun p => (p.1.1, fun event => Except.ok (UserSubscriber.update p.1.2 p.2.1 p.2.2 event)))

/-- `AsyncDispatcher.dispatch`: each message of the batch is scheduled
(via `setTimeout` with jitter) for later delivery; nothing is delivered
synchronously. -/
def Facade.dispatch (s : FacadeState) (messages : List NotificationMessage) : FacadeState :=
  { s with pending := s.pending ++ messages }

/-- Firing one scheduled delivery: the timer callback runs
`broadcast(m)`, which iterates the SSE client set *as it is at fire
time* and writes the message to each client. A delivery is the pair
(client, message). -/
def Facade.fireDelivery (s : FacadeState) (m : NotificationMessage) :
    List (String × NotificationMessage) :=
  s.sseClients.map (fun c => (c, m))

/-- `EventNotifyFacade.publishEvent`. Oracles: `eventId` for the event's
UUID, `createdAt` for its `Date.now()`, and `fresh` for the per-observer
nondeterminism of the fan-out. An exception thrown inside
`bus.notifyAll` would propagate out of `publishEvent`, hence the
`Except` result; with the `UserSubscriber` observers actually registered
it never fires. -/
def Facade.publishEvent (s : FacadeState) (eventId : String) (createdAt : Int)
    (fresh : List (String × Int)) (title : String) (ty : EventType) :
    Except String (DomainEvent × FacadeState) :=
  let event : DomainEvent := { id := eventId, title := title, type := ty, createdAt := createdAt }
  match EventBus.notifyAll (Facade.busAsObservers s.busObservers fresh) event with
  | Except.error err => Except.error err
  | Except.ok messages => Except.ok (event, Facade.dispatch s messages)

/-! ### HTTP boundary

The Express handlers for `/api/subscribe`, `/api/unsubscribe` and
`/api/publish` from server.ts. A request body field that is absent (or
not a string — non-string JSON values are not modelled) is `none`.
JavaScript truthiness: `!name` rejects both a missing field and the
empty string, likewise `!id`. -/

/-- `String.prototype.trim`: strip leading and trailing whitespace
(modelled over Lean's `Char.isWhitespace`). -/
def jsTrim (s : String) : String :=
  String.mk (((s.data.dropWhile Char.isWhitespace).reverse.dropWhile Char.isWhitespace).reverse)

/-- `["email", "sms", "push"].includes(channel)` together with the
interpretation of the accepted string as a `ChannelType`. -/
def parseChannel : String → Option ChannelType
  | "email" => some ChannelType.email
  | "sms" => some ChannelType.sms
  | "push" => some ChannelType.push
  | _ => none

/-- Response of `POST /api/subscribe`: either `200 {subscriber, total}`
or `400 {error}`. -/
inductive SubscribeResp
  | ok (subscriber : Subscriber) (total : Nat)
  | badRequest (error : String)
deriving DecidableEq, Repr

/-- Response of `POST /api/unsubscribe`: either `200 {ok: true, total}`
or `400 {error}`. -/
inductive UnsubscribeResp
  | ok (total : Nat)
  | badRequest (error : String)
deriving DecidableEq, Repr

/-- Response of `POST /api/publish`: either `200 {event,
totalSubscribers}` or `400 {error}`. -/
inductive PublishResp
  | ok (event : DomainEvent) (totalSubscribers : Nat)
  | badRequest (error : String)
deriving DecidableEq, Repr

/-- The `POST /api/subscribe` handler. Checks `name` (missing or empty
rejected), then `channel` (missing or outside email|sms|push rejected),
then calls `facade.subscribeUser(name.trim(), channel)` and reports the
new subscriber and the post-subscription count. -/
def subscribeHandler (s : FacadeState) (freshId : String)
    (name? channel? : Option String) : SubscribeResp × FacadeState :=
  match name? with
  | none => (SubscribeResp.badRequest "name es requerido", s)
  | some name =>
    if name = "" then (SubscribeResp.badRequest "name es requerido", s)
    else
      match channel? with
      | none => (SubscribeResp.badRequest "channel inválido (email|sms|push)", s)
      | some ch =>
        match parseChannel ch with
        | none => (SubscribeResp.badRequest "channel inválido (email|sms|push)", s)
        | some channel =>
          let r := Facade.subscribeUser s freshId (jsTrim name) channel
          (SubscribeResp.ok r.1 (Facade.subscriberCount r.2), r.2)

/-- The `POST /api/unsubscribe` handler. `!id` (missing or empty)
rejected; otherwise `facade.unsubscribeUser(id)` and a success response
with the post-removal count. -/
def unsubscribeHandler (s : FacadeState) (id? : Option String) :
    UnsubscribeResp × FacadeState :=
  match id? with
  | none => (UnsubscribeResp.badRequest "id es requerido", s)
  | some id =>
    if id = "" then (UnsubscribeResp.badRequest "id es requerido", s)
    else
      let s2 := Facade.unsubscribeUser s id
      (UnsubscribeResp.ok (Facade.subscriberCount s2), s2)

/-! ### Reachable facade states

The operations that mutate the facade's state over the process lifetime,
starting from the freshly constructed facade. -/

inductive Reachable : FacadeState → Prop
  | empty : Reachable FacadeState.empty
  | subscribe (s : FacadeState) (freshId name : String) (channel : ChannelType) :
      Reachable s → Reachable (Facade.subscribeUser s freshId name channel).2
  | unsubscribe (s : FacadeState) (id : String) :
      Reachable s → Reachable (Facade.unsubscribeUser s id)
  | publish (s : FacadeState) (eventId : String) (createdAt : Int)
      (fresh : List (String × Int)) (title : String) (ty : EventType)
      (event : DomainEvent) (s' : FacadeState) :
      Reachable s →
      Facade.publishEvent s eventId createdAt fresh title ty = Except.ok (event, s') →
      Reachable s'
  | addClient (s : FacadeState) (c : String) :
      Reachable s → Reachable (Facade.addSseClient s c)
  | removeClient (s : FacadeState) (c : String) :
      Reachable s → Reachable (Facade.removeSseClient s c)

/-! ### Concrete instances for witnesses and counterexamples -/

/-- A concrete event used by witnesses and counterexamples. -/
def wEvent : DomainEvent :=
  { id := "e1", title := "X", type := EventType.CREATED, createdAt := 0 }

/-- A concrete subscriber used by witnesses and counterexamples. -/
def wSub : Subscriber :=
  { id := "u2", name := "Bea", channel := ChannelType.sms }

/-- A concrete observer whose build step always succeeds. -/
def wGoodObs : Observer :=
  fun event => Except.ok (UserSubscriber.update wSub "n2" 5 event)

/-- A concrete observer whose build step always throws. -/
def wFailingObs : Observer :=
  fun _ => Except.error "boom"

/-- A concrete two-listener bus whose first listener throws. -/
def wFailingBus : List (String × Observer) :=
  [("u1", wFailingObs), ("u2", wGoodObs)]

/-- A concrete two-listener bus whose listeners both succeed. -/
def wOkBus : List (String × Observer) :=
  [("u1", fun event => Except.ok (UserSubscriber.update wSub "n1" 3 event)),
   ("u2", wGoodObs)]

/-- The central consistency invariant of §3 of the spec: the subscriber
registry and the fan-out bus hold exactly the same set of ids. -/
def SameIdSets (s : FacadeState) : Prop :=
  ∀ id, id ∈ subKeys s ↔ id ∈ busKeys s

/-- A batch of `subscribeUser` calls, one per (freshId, name, channel)
triple, applied in order. -/
def applySubscribes (s : FacadeState) :
    List (String × String × ChannelType) → FacadeState
  | [] => s
  | req :: rest => applySubscribes (Facade.subscribeUser s req.1 req.2.1 req.2.2).2 rest

/-- A batch of `unsubscribeUser` calls, applied in order. -/
def applyUnsubscribes (s : FacadeState) : List String → FacadeState
  | [] => s
  | id :: rest => applyUnsubscribes (Facade.unsubscribeUser s id) rest

/-- The `name` validation of the subscribe handler: present and
non-empty (JavaScript `!name` is true for a missing field and for the
empty string). -/
def validName : Option String → Bool
  | none => false
  | some n => n != ""

/-- The `channel` validation of the subscribe handler: present and one
of email|sms|push. -/
def validChannel : Option String → Bool
  | none => false
  | some c => (parseChannel c).isSome

/-- A concrete facade state with two connected SSE clients. -/
def wState : FacadeState :=
  { subscribers := [], busObservers := [], sseClients := ["c1", "c2"], pending := [] }

/-- A concrete notification used by witnesses. -/
def wMsg : NotificationMessage :=
  UserSubscriber.update wSub "n9" 7 wEvent

/-! ### Helper lemmas -/

theorem jsKeys_set {β : Type} (m : List (String × β)) (k : String) (v : β) :
    jsKeys (jsMapSet m k v) =
      if k ∈ jsKeys m then jsKeys m else jsKeys m ++ [k] := by
  unfold jsMapSet jsKeys
  split
  · simp only [List.map_map]
    refine List.map_congr_left ?_
    intro p _
    by_cases h : p.1 = k
    · simp [Function.comp, h]
    · simp [Function.comp, h]
  · simp

theorem jsKeys_delete {β : Type} (m : List (String × β)) (k : String) :
    jsKeys (jsMapDelete m k) = (jsKeys m).filter (fun x => x ≠ k) := by
  unfold jsMapDelete jsKeys
  induction m with
  | nil => rfl
  | cons p rest ih =>
    by_cases h : p.1 = k
    · simpa [List.filter_cons, h] using ih
    · simpa [List.filter_cons, h] using ih

/-- `notifyAll` over observers that are all of the `Except.ok` shape
produces the corresponding list of messages. -/
theorem notifyAll_map_ok {α : Type} (l : List α) (key : α → String)
    (f : α → DomainEvent → NotificationMessage) (event : DomainEvent) :
    EventBus.notifyAll (l.map (fun x => (key x, fun ev => Except.ok (f x ev)))) event =
      Except.ok (l.map (fun x => f x event)) := by
  induction l with
  | nil => rfl
  | cons x rest ih =>
    simp only [List.map_cons, EventBus.notifyAll, ih]

/-- The fan-out over the actually registered `UserSubscriber` observers
never throws and produces one message per bus entry consumed. -/
theorem notifyAll_busAsObservers (subs : List (String × Subscriber))
    (fresh : List (String × Int)) (event : DomainEvent) :
    EventBus.notifyAll (Facade.busAsObservers subs fresh) event =
      Except.ok ((subs.zip fresh).map
        (fun p => UserSubscriber.update p.1.2 p.2.1 p.2.2 event)) := by
  unfold Facade.busAsObservers
  exact notifyAll_map_ok (subs.zip fresh) (fun p => p.1.1)
    (fun p ev => UserSubscriber.update p.1.2 p.2.1 p.2.2 ev) event

/-! ### Claims about the notification builder and the fan-out bus -/

/-- C2: the builder's `latencyMs` equals `max(0, sentAt − createdAt)`
and hence is never negative, even when `createdAt` is in the future of
the render time. -/
theorem c2_latency_clamped (sub : Subscriber) (freshId : String) (sentAt : Int)
    (event : DomainEvent) :
    (UserSubscriber.update sub freshId sentAt event).latencyMs =
        max 0 (sentAt - event.createdAt) ∧
      0 ≤ (UserSubscriber.update sub freshId sentAt event).latencyMs :=
  ⟨rfl, le_max_left 0 (sentAt - event.createdAt)⟩

/-- C1: when no listener's build step throws, `notifyAll` returns one
notification per currently registered listener, the i-th notification
coming from the i-th listener in registration (map insertion) order. -/
theorem c1_notifyAll_one_per_listener (observers : List (String × Observer))
    (event : DomainEvent)
    (h : ∀ p ∈ observers, ∃ m, p.2 event = Except.ok m) :
    ∃ out, EventBus.notifyAll observers event = Except.ok out ∧
      out.length = observers.length ∧
      ∀ i (hi : i < observers.length) (ho : i < out.length),
        (observers.get ⟨i, hi⟩).2 event = Except.ok (out.get ⟨i, ho⟩) := by
  induction observers with
  | nil => exact ⟨[], rfl, rfl, fun i hi => absurd hi (Nat.not_lt_zero i)⟩
  | cons p rest ih =>
    obtain ⟨m, hm⟩ := h p (List.mem_cons_self p rest)
    obtain ⟨out, hout, hlen, hidx⟩ := ih (fun q hq => h q (List.mem_cons_of_mem p hq))
    refine ⟨m :: out, ?_, ?_, ?_⟩
    · obtain ⟨k, obs⟩ := p
      simp only [EventBus.notifyAll]
      simp only at hm
      rw [hm, hout]
    · simpa using hlen
    · intro i hi ho
      match i with
      | 0 => simpa using hm
      | Nat.succ j =>
        exact hidx j (Nat.lt_of_succ_lt_succ hi) (Nat.lt_of_succ_lt_succ ho)

/-- C1 witness: a concrete two-listener bus and event. -/
theorem c1_witness :
    (∀ p ∈ wOkBus, ∃ m, p.2 wEvent = Except.ok m) ∧
    ∃ out, EventBus.notifyAll wOkBus wEvent = Except.ok out ∧
      out.length = wOkBus.length ∧
      ∀ i (hi : i < wOkBus.length) (ho : i < out.length),
        (wOkBus.get ⟨i, hi⟩).2 wEvent = Except.ok (out.get ⟨i, ho⟩) := by
  have hall : ∀ p ∈ wOkBus, ∃ m, p.2 wEvent = Except.ok m := by
    intro p hp
    simp only [wOkBus, List.mem_cons, List.not_mem_nil, or_false] at hp
    rcases hp with h | h
    · exact ⟨UserSubscriber.update wSub "n1" 3 wEvent, by rw [h]⟩
    · exact ⟨UserSubscriber.update wSub "n2" 5 wEvent, by rw [h]; rfl⟩
  exact ⟨hall, c1_notifyAll_one_per_listener wOkBus wEvent hall⟩

/-- C5 counterexample: with a bus whose first listener throws, the
publish-side call does not receive a batch omitting the failing
subscriber's notification — the exception propagates out of `notifyAll`
(there is no try/catch around the loop in server.ts). -/
theorem c5_counterexample :
    EventBus.notifyAll wFailingBus wEvent = Except.error "boom" ∧
    EventBus.notifyAll wFailingBus wEvent ≠
      Except.ok [UserSubscriber.update wSub "n2" 5 wEvent] :=
  ⟨rfl, fun h => Except.noConfusion h⟩

/-- C5 amended: a listener whose build step throws aborts the fan-out —
`notifyAll` propagates the first error thrown by a listener (all
listeners before it having succeeded), no batch is returned, and the
listeners after the failing one contribute nothing. -/
theorem c5_amended_failure_propagates (pre post : List (String × Observer))
    (k : String) (obs : Observer) (event : DomainEvent) (err : String)
    (hpre : ∀ p ∈ pre, ∃ m, p.2 event = Except.ok m)
    (hobs : obs event = Except.error err) :
    EventBus.notifyAll (pre ++ (k, obs) :: post) event = Except.error err := by
  induction pre with
  | nil =>
    simp only [List.nil_append, EventBus.notifyAll]
    rw [hobs]
  | cons q rest ih =>
    obtain ⟨m, hm⟩ := hpre q (List.mem_cons_self q rest)
    have ih' := ih (fun p hp => hpre p (List.mem_cons_of_mem q hp))
    obtain ⟨kq, obsq⟩ := q
    simp only at hm
    have hstep : EventBus.notifyAll (((kq, obsq) :: rest) ++ (k, obs) :: post) event =
        match obsq event with
        | Except.error e => Except.error e
        | Except.ok msg =>
          match EventBus.notifyAll (rest ++ (k, obs) :: post) event with
          | Except.error e => Except.error e
          | Except.ok msgs => Except.ok (msg :: msgs) := rfl
    rw [hstep, hm, ih']

/-- C5 amended witness: the concrete failing bus, split as one
succeeding listener in front of the throwing one. -/
theorem c5_amended_witness :
    (∀ p ∈ [(("u0" : String), wGoodObs)], ∃ m, p.2 wEvent = Except.ok m) ∧
    wFailingObs wEvent = Except.error "boom" ∧
    EventBus.notifyAll ([("u0", wGoodObs)] ++ ("u1", wFailingObs) :: [("u2", wGoodObs)])
        wEvent = Except.error "boom" := by
  have hpre : ∀ p ∈ [(("u0" : String), wGoodObs)], ∃ m, p.2 wEvent = Except.ok m := by
    intro p hp
    simp only [List.mem_cons, List.not_mem_nil, or_false] at hp
    exact ⟨UserSubscriber.update wSub "n2" 5 wEvent, by rw [hp]; rfl⟩
  exact ⟨hpre, rfl,
    c5_amended_failure_propagates [("u0", wGoodObs)] [("u2", wGoodObs)]
      "u1" wFailingObs wEvent "boom" hpre rfl⟩

/-- C10: the synchronous part of `publishEvent` succeeds and leaves the
subscriber registry, the bus's listener map and the SSE client set
unchanged — it only creates the event, builds the batch and appends the
batch to the scheduled deliveries. -/
theorem c10_publish_frame (s : FacadeState) (eventId : String) (createdAt : Int)
    (fresh : List (String × Int)) (title : String) (ty : EventType) :
    ∃ event s',
      Facade.publishEvent s eventId createdAt fresh title ty = Except.ok (event, s') ∧
      s'.subscribers = s.subscribers ∧
      s'.busObservers = s.busObservers ∧
      s'.sseClients = s.sseClients := by
  simp only [Facade.publishEvent, notifyAll_busAsObservers]
  exact ⟨_, _, rfl, rfl, rfl, rfl⟩

/-- `publishEvent` computed: it always succeeds (the registered
`UserSubscriber` observers never throw) and only appends the batch to
the scheduled deliveries. -/
theorem publishEvent_eq (s : FacadeState) (eventId : String) (createdAt : Int)
    (fresh : List (String × Int)) (title : String) (ty : EventType) :
    Facade.publishEvent s eventId createdAt fresh title ty =
      Except.ok ({ id := eventId, title := title, type := ty, createdAt := createdAt },
        Facade.dispatch s ((s.busObservers.zip fresh).map
          (fun p => UserSubscriber.update p.1.2 p.2.1 p.2.2
            { id := eventId, title := title, type := ty, createdAt := createdAt }))) := by
  simp only [Facade.publishEvent, notifyAll_busAsObservers]

/-- Deleting an absent key is the identity. -/
theorem jsMapDelete_not_mem {β : Type} (m : List (String × β)) (k : String)
    (h : k ∉ jsKeys m) : jsMapDelete m k = m := by
  refine List.filter_eq_self.mpr ?_
  intro p hp
  have : p.1 ∈ jsKeys m := List.mem_map_of_mem Prod.fst hp
  have hne : p.1 ≠ k := fun he => h (he ▸ this)
  simpa using hne

/-- `subscribeUser` preserves the registry/bus id-set equality. -/
theorem sameIdSets_subscribe (s : FacadeState) (freshId name : String)
    (channel : ChannelType) (h : SameIdSets s) :
    SameIdSets (Facade.subscribeUser s freshId name channel).2 := by
  intro id
  have hs : subKeys (Facade.subscribeUser s freshId name channel).2 =
      if freshId ∈ jsKeys s.subscribers then jsKeys s.subscribers
      else jsKeys s.subscribers ++ [freshId] := jsKeys_set s.subscribers freshId _
  have hb : busKeys (Facade.subscribeUser s freshId name channel).2 =
      if freshId ∈ jsKeys s.busObservers then jsKeys s.busObservers
      else jsKeys s.busObservers ++ [freshId] := jsKeys_set s.busObservers freshId _
  rw [hs, hb]
  by_cases hf : freshId ∈ jsKeys s.subscribers
  · have hf' : freshId ∈ jsKeys s.busObservers := (h freshId).mp hf
    rw [if_pos hf, if_pos hf']
    exact h id
  · have hf' : freshId ∉ jsKeys s.busObservers := fun hc => hf ((h freshId).mpr hc)
    rw [if_neg hf, if_neg hf']
    simp only [List.mem_append, List.mem_singleton]
    exact or_congr (h id) Iff.rfl

/-- `unsubscribeUser` preserves the registry/bus id-set equality. -/
theorem sameIdSets_unsubscribe (s : FacadeState) (id : String) (h : SameIdSets s) :
    SameIdSets (Facade.unsubscribeUser s id) := by
  intro x
  have hs : subKeys (Facade.unsubscribeUser s id) =
      (jsKeys s.subscribers).filter (fun y => y ≠ id) := jsKeys_delete s.subscribers id
  have hb : busKeys (Facade.unsubscribeUser s id) =
      (jsKeys s.busObservers).filter (fun y => y ≠ id) := jsKeys_delete s.busObservers id
  rw [hs, hb]
  simp only [List.mem_filter]
  exact and_congr (h x) Iff.rfl

/-- C3: in every reachable facade state the registry's id set and the
bus's listener id set are equal in membership, and each of
`subscribeUser` and `unsubscribeUser` preserves that equality. -/
theorem c3_registry_bus_lockstep :
    (∀ s, Reachable s → SameIdSets s) ∧
    (∀ s freshId name channel, SameIdSets s →
      SameIdSets (Facade.subscribeUser s freshId name channel).2) ∧
    (∀ s id, SameIdSets s → SameIdSets (Facade.unsubscribeUser s id)) := by
  refine ⟨?_, sameIdSets_subscribe, sameIdSets_unsubscribe⟩
  intro s hs
  induction hs with
  | empty => exact fun id => Iff.rfl
  | subscribe s freshId name channel _ ih =>
    exact sameIdSets_subscribe s freshId name channel ih
  | unsubscribe s id _ ih => exact sameIdSets_unsubscribe s id ih
  | publish s eventId createdAt fresh title ty event s' _ hpub ih =>
    rw [publishEvent_eq] at hpub
    have hstate : s' = Facade.dispatch s ((s.busObservers.zip fresh).map
        (fun p => UserSubscriber.update p.1.2 p.2.1 p.2.2
          { id := eventId, title := title, type := ty, createdAt := createdAt })) :=
      ((Prod.mk.injEq _ _ _ _).mp (Except.ok.inj hpub)).2.symm
    rw [hstate]
    exact ih
  | addClient s c _ ih => exact ih
  | removeClient s c _ ih => exact ih

/-- C3 witness: the invariant holds at the concrete state reached by
one subscribe, via the reachability half of the theorem. -/
theorem c3_witness :
    "a" ∈ subKeys (Facade.subscribeUser FacadeState.empty "a" "Ana" ChannelType.email).2 ↔
    "a" ∈ busKeys (Facade.subscribeUser FacadeState.empty "a" "Ana" ChannelType.email).2 :=
  c3_registry_bus_lockstep.1 _
    (Reachable.subscribe FacadeState.empty "a" "Ana" ChannelType.email Reachable.empty) "a"

/-- Subscribing a fresh id appends it to the bus's key list. -/
theorem busKeys_subscribeUser_fresh (s : FacadeState) (freshId name : String)
    (channel : ChannelType) (h : freshId ∉ busKeys s) :
    busKeys (Facade.subscribeUser s freshId name channel).2 = busKeys s ++ [freshId] := by
  have := jsKeys_set s.busObservers freshId
    ({ id := freshId, name := name, channel := channel } : Subscriber)
  unfold Facade.subscribeUser busKeys
  unfold busKeys at h
  simp only [this, if_neg h]

/-- A batch of subscribes with pairwise-distinct ids, all fresh for the
starting state, appends exactly those ids to the bus's key list. -/
theorem busKeys_applySubscribes (reqs : List (String × String × ChannelType)) :
    ∀ s : FacadeState, (∀ r ∈ reqs, r.1 ∉ busKeys s) →
    (reqs.map (fun r => r.1)).Nodup →
    busKeys (applySubscribes s reqs) = busKeys s ++ reqs.map (fun r => r.1) := by
  induction reqs with
  | nil => intro s _ _; simp [applySubscribes]
  | cons req rest ih =>
    intro s hfresh hnd
    have hhead : req.1 ∉ busKeys s := hfresh req (List.mem_cons_self req rest)
    have hkeys1 : busKeys (Facade.subscribeUser s req.1 req.2.1 req.2.2).2 =
        busKeys s ++ [req.1] := busKeys_subscribeUser_fresh s req.1 req.2.1 req.2.2 hhead
    have hnd' : (rest.map (fun r => r.1)).Nodup := (List.nodup_cons.mp (by simpa using hnd)).2
    have hne : ∀ r ∈ rest, r.1 ≠ req.1 := by
      intro r hr he
      have : req.1 ∈ rest.map (fun x => x.1) := he ▸ List.mem_map_of_mem (fun x => x.1) hr
      exact (List.nodup_cons.mp (by simpa using hnd)).1 this
    have hfresh' : ∀ r ∈ rest, r.1 ∉ busKeys (Facade.subscribeUser s req.1 req.2.1 req.2.2).2 := by
      intro r hr
      rw [hkeys1]
      simp only [List.mem_append, List.mem_singleton]
      rintro (hin | heq)
      · exact hfresh r (List.mem_cons_of_mem req hr) hin
      · exact hne r hr heq
    show busKeys (applySubscribes (Facade.subscribeUser s req.1 req.2.1 req.2.2).2 rest) = _
    rw [ih (Facade.subscribeUser s req.1 req.2.1 req.2.2).2 hfresh' hnd', hkeys1]
    simp [List.append_assoc]

/-- Filtering away a value occurring elsewhere leaves other counts
unchanged. -/
theorem count_filter_ne (l : List String) (r x : String) (h : x ≠ r) :
    (l.filter (fun y => y ≠ r)).count x = l.count x := by
  induction l with
  | nil => rfl
  | cons a rest ih =>
    by_cases ha : a = r
    · subst ha
      rw [List.filter_cons_of_neg (by simp)]
      rw [List.count_cons_of_ne h rest, ih]
    · rw [List.filter_cons_of_pos (by simpa using ha)]
      by_cases hxa : x = a
      · subst hxa
        rw [List.count_cons_self, List.count_cons_self, ih]
      · rw [List.count_cons_of_ne hxa, List.count_cons_of_ne hxa, ih]

/-- Filtering away a value absent from the list is the identity. -/
theorem filter_ne_of_count_zero (l : List String) (r : String) (h : l.count r = 0) :
    l.filter (fun y => y ≠ r) = l := by
  refine List.filter_eq_self.mpr ?_
  intro a ha
  have : r ∉ l := List.count_eq_zero.mp h
  have hne : a ≠ r := fun he => this (he ▸ ha)
  simpa using hne

/-- Filtering away a value occurring exactly once shortens the list by
one. -/
theorem length_filter_ne_of_count_one (l : List String) (r : String) (h : l.count r = 1) :
    (l.filter (fun y => y ≠ r)).length = l.length - 1 := by
  induction l with
  | nil => simp at h
  | cons a rest ih =>
    by_cases ha : a = r
    · subst ha
      rw [List.count_cons_self] at h
      have hzero : rest.count a = 0 := by omega
      rw [List.filter_cons_of_neg (by simp)]
      rw [filter_ne_of_count_zero rest a hzero]
      simp
    · rw [List.count_cons_of_ne (fun he => ha he.symm) rest] at h
      have hlen := ih h
      have hpos : 1 ≤ rest.length := by
        have : r ∈ rest := List.count_pos_iff.mp (by omega)
        exact List.length_pos_of_mem this
      rw [List.filter_cons_of_pos (by simpa using ha)]
      simp only [List.length_cons, hlen]
      omega

/-- A batch of unsubscribes of distinct ids, each occurring exactly once
among the bus keys, shortens the bus key list by the batch size. -/
theorem length_busKeys_applyUnsubscribes (ids : List String) :
    ∀ s : FacadeState, ids.Nodup → (∀ r ∈ ids, (busKeys s).count r = 1) →
    (busKeys (applyUnsubscribes s ids)).length = (busKeys s).length - ids.length := by
  induction ids with
  | nil => intro s _ _; simp [applyUnsubscribes]
  | cons r rest ih =>
    intro s hnd hcount
    have hr : (busKeys s).count r = 1 := hcount r (List.mem_cons_self r rest)
    have hkeys1 : busKeys (Facade.unsubscribeUser s r) =
        (busKeys s).filter (fun y => y ≠ r) := jsKeys_delete s.busObservers r
    have hlen1 : (busKeys (Facade.unsubscribeUser s r)).length = (busKeys s).length - 1 := by
      rw [hkeys1]
      exact length_filter_ne_of_count_one (busKeys s) r hr
    have hnd' : rest.Nodup := (List.nodup_cons.mp hnd).2
    have hcount' : ∀ x ∈ rest, (busKeys (Facade.unsubscribeUser s r)).count x = 1 := by
      intro x hx
      have hxr : x ≠ r := fun he => (List.nodup_cons.mp hnd).1 (he ▸ hx)
      rw [hkeys1, count_filter_ne (busKeys s) r x hxr]
      exact hcount x (List.mem_cons_of_mem r hx)
    have hpos : 1 ≤ (busKeys s).length := by
      have : r ∈ busKeys s := List.count_pos_iff.mp (by omega)
      exact List.length_pos_of_mem this
    show (busKeys (applyUnsubscribes (Facade.unsubscribeUser s r) rest)).length = _
    rw [ih (Facade.unsubscribeUser s r) hnd' hcount', hlen1]
    simp only [List.length_cons]
    omega

/-- The externally reported count is the length of the bus's key
list. -/
theorem subscriberCount_eq_busKeys_length (s : FacadeState) :
    Facade.subscriberCount s = (busKeys s).length :=
  (List.length_map s.busObservers Prod.fst).symm

/-- C4: starting from any state, after N subscribes with pairwise
distinct fresh ids followed by M unsubscribes of distinct ids drawn from
those N, the reported count has grown by exactly N − M. -/
theorem c4_count_after_batches (s : FacadeState)
    (reqs : List (String × String × ChannelType)) (removeIds : List String)
    (hfresh : ∀ r ∈ reqs, r.1 ∉ busKeys s)
    (hnd : (reqs.map (fun r => r.1)).Nodup)
    (hrnd : removeIds.Nodup)
    (hsub : ∀ x ∈ removeIds, x ∈ reqs.map (fun r => r.1)) :
    Facade.subscriberCount (applyUnsubscribes (applySubscribes s reqs) removeIds) =
      Facade.subscriberCount s + reqs.length - removeIds.length := by
  have hkeys : busKeys (applySubscribes s reqs) = busKeys s ++ reqs.map (fun r => r.1) :=
    busKeys_applySubscribes reqs s hfresh hnd
  have hcount : ∀ x ∈ removeIds, (busKeys (applySubscribes s reqs)).count x = 1 := by
    intro x hx
    have hxnew : x ∈ reqs.map (fun r => r.1) := hsub x hx
    have hxold : x ∉ busKeys s := by
      obtain ⟨r, hr, hrx⟩ := List.mem_map.mp hxnew
      exact hrx ▸ hfresh r hr
    rw [hkeys, List.count_append]
    rw [List.count_eq_zero.mpr hxold, List.count_eq_one_of_mem hnd hxnew]
  have hlen := length_busKeys_applyUnsubscribes removeIds (applySubscribes s reqs) hrnd hcount
  rw [subscriberCount_eq_busKeys_length, subscriberCount_eq_busKeys_length, hlen, hkeys]
  simp [List.length_append]

/-- C4 witness: two fresh subscribes then one unsubscribe leave a count
of one on the initially empty facade. -/
theorem c4_witness :
    ((∀ r ∈ [("a", "Ana", ChannelType.email), ("b", "Bea", ChannelType.sms)],
        r.1 ∉ busKeys FacadeState.empty) ∧
      ([("a", "Ana", ChannelType.email), ("b", "Bea", ChannelType.sms)].map
        (fun r => r.1)).Nodup ∧
      (["a"] : List String).Nodup ∧
      (∀ x ∈ (["a"] : List String),
        x ∈ [("a", "Ana", ChannelType.email), ("b", "Bea", ChannelType.sms)].map
          (fun r => r.1))) ∧
    Facade.subscriberCount
        (applyUnsubscribes
          (applySubscribes FacadeState.empty
            [("a", "Ana", ChannelType.email), ("b", "Bea", ChannelType.sms)]) ["a"]) =
      Facade.subscriberCount FacadeState.empty + 2 - 1 :=
  ⟨⟨by decide, by decide, by decide, by decide⟩,
    c4_count_after_batches FacadeState.empty
      [("a", "Ana", ChannelType.email), ("b", "Bea", ChannelType.sms)] ["a"]
      (by decide) (by decide) (by decide) (by decide)⟩

/-- Unsubscribing an id absent from both maps leaves the state equal. -/
theorem unsubscribeUser_not_mem (s : FacadeState) (id : String)
    (h1 : id ∉ subKeys s) (h2 : id ∉ busKeys s) :
    Facade.unsubscribeUser s id = s := by
  unfold Facade.unsubscribeUser
  rw [jsMapDelete_not_mem s.subscribers id h1, jsMapDelete_not_mem s.busObservers id h2]

/-- C6 counterexample: the empty string is an id not present in the
registry, yet the unsubscribe endpoint rejects it as a missing field
(JavaScript `!id` is true for `""`), contradicting the claim's "reports
success" for *every* absent id. -/
theorem c6_counterexample :
    ("" ∉ subKeys FacadeState.empty) ∧
    unsubscribeHandler FacadeState.empty (some "") =
      (UnsubscribeResp.badRequest "id es requerido", FacadeState.empty) :=
  ⟨List.not_mem_nil "", rfl⟩

/-- C6 amended: for every *non-empty* id absent from the registry (and,
per the lockstep invariant, from the bus), `unsubscribeUser` is the
identity on the state and the unsubscribe endpoint reports success with
an unchanged count; the empty-string id, though never present, is
treated by the endpoint as a missing field and rejected. -/
theorem c6_unsubscribe_missing_noop (s : FacadeState) (id : String)
    (hid : id ≠ "") (h1 : id ∉ subKeys s) (h2 : id ∉ busKeys s) :
    Facade.unsubscribeUser s id = s ∧
    unsubscribeHandler s (some id) =
      (UnsubscribeResp.ok (Facade.subscriberCount s), s) := by
  have hnoop := unsubscribeUser_not_mem s id h1 h2
  refine ⟨hnoop, ?_⟩
  simp only [unsubscribeHandler, if_neg hid, hnoop]

/-- C6 amended witness: removing the unknown id "b" from a facade with
one subscriber "a". -/
theorem c6_witness :
    (("b" : String) ≠ "" ∧
      "b" ∉ subKeys (Facade.subscribeUser FacadeState.empty "a" "Ana" ChannelType.email).2 ∧
      "b" ∉ busKeys (Facade.subscribeUser FacadeState.empty "a" "Ana" ChannelType.email).2) ∧
    Facade.unsubscribeUser (Facade.subscribeUser FacadeState.empty "a" "Ana" ChannelType.email).2 "b" =
        (Facade.subscribeUser FacadeState.empty "a" "Ana" ChannelType.email).2 ∧
    unsubscribeHandler (Facade.subscribeUser FacadeState.empty "a" "Ana" ChannelType.email).2
        (some "b") =
      (UnsubscribeResp.ok
        (Facade.subscriberCount (Facade.subscribeUser FacadeState.empty "a" "Ana" ChannelType.email).2),
       (Facade.subscribeUser FacadeState.empty "a" "Ana" ChannelType.email).2) :=
  ⟨⟨by decide, by decide, by decide⟩,
    c6_unsubscribe_missing_noop
      (Facade.subscribeUser FacadeState.empty "a" "Ana" ChannelType.email).2 "b"
      (by decide) (by decide) (by decide)⟩

/-- C7: a subscribe request with a missing/empty name or a channel
outside email|sms|push is rejected with a descriptive error and the
state is exactly the state before the call. -/
theorem c7_invalid_subscribe_rejected (s : FacadeState) (freshId : String)
    (name? channel? : Option String)
    (h : validName name? = false ∨ validChannel channel? = false) :
    ∃ msg, subscribeHandler s freshId name? channel? =
      (SubscribeResp.badRequest msg, s) := by
  cases name? with
  | none => exact ⟨"name es requerido", rfl⟩
  | some n =>
    by_cases hn : n = ""
    · exact ⟨"name es requerido", by simp [subscribeHandler, hn]⟩
    · have hch : validChannel channel? = false := by
        rcases h with h | h
        · exfalso
          rw [validName] at h
          simp [hn] at h
        · exact h
      cases channel? with
      | none => exact ⟨"channel inválido (email|sms|push)", by simp [subscribeHandler, hn]⟩
      | some c =>
        cases hpc : parseChannel c with
        | some ch =>
          exfalso
          rw [validChannel, hpc] at hch
          simp at hch
        | none =>
          exact ⟨"channel inválido (email|sms|push)", by simp [subscribeHandler, hn, hpc]⟩

/-- C7 witness: a well-formed name with the unsupported channel "fax"
on the empty facade. -/
theorem c7_witness :
    (validName (some "Ana") = true ∧ validChannel (some "fax") = false) ∧
    ∃ msg, subscribeHandler FacadeState.empty "u1" (some "Ana") (some "fax") =
      (SubscribeResp.badRequest msg, FacadeState.empty) :=
  ⟨⟨by decide, by decide⟩,
    c7_invalid_subscribe_rejected FacadeState.empty "u1" (some "Ana") (some "fax")
      (Or.inr (by decide))⟩

/-- `dropWhile` consumes a list all of whose elements satisfy the
predicate. -/
theorem dropWhile_all {p : Char → Bool} (l : List Char)
    (h : ∀ c ∈ l, p c = true) : l.dropWhile p = [] := by
  induction l with
  | nil => rfl
  | cons a t ih =>
    rw [List.dropWhile_cons, h a (List.mem_cons_self a t)]
    exact ih (fun c hc => h c (List.mem_cons_of_mem a hc))

/-- Trimming a string made only of whitespace yields the empty
string. -/
theorem jsTrim_all_whitespace (s : String)
    (h : ∀ c ∈ s.data, Char.isWhitespace c = true) : jsTrim s = "" := by
  unfold jsTrim
  rw [dropWhile_all s.data h]
  rfl

/-- C9: a non-empty, all-whitespace name passes the handler's
validation (only a missing name and the empty string are rejected, the
check runs before trimming) and the stored subscriber's name is the
empty string, because `name.trim()` is applied only afterwards. -/
theorem c9_whitespace_name_stored_empty (s : FacadeState) (freshId w cs : String)
    (ch : ChannelType) (hw : w ≠ "")
    (hws : ∀ c ∈ w.data, Char.isWhitespace c = true)
    (hch : parseChannel cs = some ch) :
    subscribeHandler s freshId (some w) (some cs) =
      (SubscribeResp.ok { id := freshId, name := "", channel := ch }
        (Facade.subscriberCount (Facade.subscribeUser s freshId "" ch).2),
       (Facade.subscribeUser s freshId "" ch).2) := by
  have htrim := jsTrim_all_whitespace w hws
  simp only [subscribeHandler, if_neg hw, hch, htrim]
  rfl

/-- C9 witness: the one-space name together with the "email" channel on
the empty facade. -/
theorem c9_witness :
    ((" " : String) ≠ "" ∧ (∀ c ∈ (" " : String).data, Char.isWhitespace c = true) ∧
      parseChannel "email" = some ChannelType.email) ∧
    subscribeHandler FacadeState.empty "u1" (some " ") (some "email") =
      (SubscribeResp.ok { id := "u1", name := "", channel := ChannelType.email }
        (Facade.subscriberCount (Facade.subscribeUser FacadeState.empty "u1" "" ChannelType.email).2),
       (Facade.subscribeUser FacadeState.empty "u1" "" ChannelType.email).2) :=
  ⟨⟨by decide, by decide, by decide⟩,
    c9_whitespace_name_stored_empty FacadeState.empty "u1" " " "email" ChannelType.email
      (by decide) (by decide) (by decide)⟩

/-- C8: a streaming client removed after a batch is scheduled but
before a scheduled delivery fires receives nothing from that delivery —
the recipients of a fired delivery are exactly the clients connected at
fire time, not at schedule time. -/
theorem c8_removed_client_not_delivered (s : FacadeState)
    (msgs : List NotificationMessage) (c : String) (m : NotificationMessage)
    (_hm : m ∈ msgs) (_hc : c ∈ s.sseClients) :
    (∀ p ∈ Facade.fireDelivery (Facade.removeSseClient (Facade.dispatch s msgs) c) m,
      p.1 ≠ c) ∧
    Facade.fireDelivery (Facade.removeSseClient (Facade.dispatch s msgs) c) m =
      ((Facade.removeSseClient (Facade.dispatch s msgs) c).sseClients).map
        (fun x => (x, m)) := by
  refine ⟨?_, rfl⟩
  intro p hp
  unfold Facade.fireDelivery Facade.removeSseClient Facade.dispatch at hp
  simp only [List.mem_map, List.mem_filter, decide_eq_true_eq] at hp
  obtain ⟨x, ⟨_, hxc⟩, hxp⟩ := hp
  rw [← hxp]
  simpa using hxc

/-- C8 witness: a two-client state, one scheduled message, client "c1"
disconnecting before the delivery fires. -/
theorem c8_witness :
    (wMsg ∈ [wMsg] ∧ "c1" ∈ wState.sseClients) ∧
    (∀ p ∈ Facade.fireDelivery (Facade.removeSseClient (Facade.dispatch wState [wMsg]) "c1") wMsg,
      p.1 ≠ "c1") ∧
    Facade.fireDelivery (Facade.removeSseClient (Facade.dispatch wState [wMsg]) "c1") wMsg =
      ((Facade.removeSseClient (Facade.dispatch wState [wMsg]) "c1").sseClients).map
        (fun x => (x, wMsg)) :=
  ⟨⟨List.mem_cons_self wMsg [], by decide⟩,
    c8_removed_client_not_delivered wState [wMsg] "c1" wMsg
      (List.mem_cons_self wMsg []) (by decide)⟩
